import Mathlib

/-!
# Verification of the grok-cli streaming tool-execution loop

Shallow embedding of the core of the `grok-cli` repository:

* `src/utils/command-validator.ts` — command safety validation
  (`validateCommand`, `isHighRiskCommand`, `CommandRateLimiter`);
* `src/tools/bash.ts` — `BashTool.execute`'s gate sequence
  (validation → rate limit → confirmation → execution);
* `src/ui/components/chat-interface.tsx` — the streaming dispatcher
  inside `processInitialMessage` together with
  `sizeLimitedSetChatHistory`, `addToHistory` and
  `flushStreamingContent`.

JavaScript strings are modelled as Lean `String` (lists of characters),
JavaScript numbers holding timestamps as `Int`, and the regular
expressions of the validator as directly-programmed search functions
over `List Char` that implement exactly the search semantics of each
concrete pattern (all patterns involved are deterministic in the sense
that greedy matching never needs to backtrack at the character class
boundaries that occur in them, except for the explicit alternation
points which are implemented as explicit scans).
-/

namespace GrokCli

/-! ## Character classes used by the JavaScript regexes

`jsWs` is the JavaScript `\s` class (WhiteSpace ∪ LineTerminator),
`isLineTerm` the set of characters *not* matched by `.`. -/

/-- JavaScript's `\s` character class (also used by `String.prototype.trim`). -/
def jsWs (c : Char) : Bool :=
  let n := c.toNat
  n == 0x20 || n == 0x09 || n == 0x0a || n == 0x0b || n == 0x0c || n == 0x0d ||
  n == 0xa0 || n == 0x1680 || (0x2000 ≤ n && n ≤ 0x200a) ||
  n == 0x2028 || n == 0x2029 || n == 0x202f || n == 0x205f || n == 0x3000 || n == 0xfeff

/-- Characters not matched by `.` in a JavaScript regex (line terminators). -/
def isLineTerm (c : Char) : Bool :=
  let n := c.toNat
  n == 0x0a || n == 0x0d || n == 0x2028 || n == 0x2029

/-- `command.trim()`: strip `jsWs` characters from both ends. -/
def trimJs (s : String) : String :=
  String.mk (((s.data.dropWhile jsWs).reverse.dropWhile jsWs).reverse)

/-- Match a literal character sequence at the head, returning the rest. -/
def dropLit : List Char → List Char → Option (List Char)
  | [], cs => some cs
  | _ :: _, [] => none
  | l :: ls, c :: cs => if c = l then dropLit ls cs else none

/-- Does the literal occur at the head? (regex lookahead test). -/
def beginsWith (lit cs : List Char) : Bool :=
  (dropLit lit cs).isSome

/-- `\s+` followed by a non-whitespace continuation: require at least one
whitespace character, then consume the maximal whitespace run. -/
def ws1 : List Char → Option (List Char)
  | [] => none
  | c :: cs => if jsWs c then some (cs.dropWhile jsWs) else none

/-- `p` tested at every start position of the string (regex search). -/
def searchSuffix (p : List Char → Bool) : List Char → Bool
  | [] => p []
  | c :: cs => p (c :: cs) || searchSuffix p cs

/-- `trimmed.includes(needle)` — substring containment. -/
def containsSub (needle : List Char) (hay : List Char) : Bool :=
  searchSuffix (beginsWith needle) hay

/-! ## The individual dangerous-pattern matchers

One matcher per entry of `DANGEROUS_PATTERNS`, in source order. Each
`patNAt` matches the pattern anchored at the head of its argument;
`searchSuffix` turns it into a `RegExp.test` search. -/

/-- `/rm\s+-rf\s+\/(?!tmp|var\/tmp)/` anchored at the head. -/
def pat1At (cs : List Char) : Bool :=
  match ((((dropLit "rm".data cs).bind ws1).bind
      (dropLit "-rf".data)).bind ws1).bind (dropLit "/".data) with
  | some r => !(beginsWith "tmp".data r || beginsWith "var/tmp".data r)
  | none => false

/-- `.*\*`: a `*` occurs later with no line terminator in between. -/
def starBeforeNL : List Char → Bool
  | [] => false
  | c :: cs => if c = '*' then true else if isLineTerm c then false else starBeforeNL cs

/-- `/rm\s+-rf.*\*/` anchored at the head. -/
def pat2At (cs : List Char) : Bool :=
  match ((dropLit "rm".data cs).bind ws1).bind (dropLit "-rf".data) with
  | some r => starBeforeNL r
  | none => false

/-- `/>+\s*\/dev\/(sda|hda|nvme)/` anchored at the head. -/
def pat3At (cs : List Char) : Bool :=
  match cs with
  | [] => false
  | c :: rest =>
    if c = '>' then
      let r := (rest.dropWhile (· = '>')).dropWhile jsWs
      match dropLit "/dev/".data r with
      | some r2 => beginsWith "sda".data r2 || beginsWith "hda".data r2 ||
          beginsWith "nvme".data r2
      | none => false
    else false

/-- `/chmod\s+777\s+\//` anchored at the head. -/
def pat4At (cs : List Char) : Bool :=
  (((((dropLit "chmod".data cs).bind ws1).bind
      (dropLit "777".data)).bind ws1).bind (dropLit "/".data)).isSome

/-- `.*\|\s*bash`: scan for a `|` (within the `.`-matchable region)
followed by optional whitespace and `bash`. -/
def pipeBashFrom : List Char → Bool
  | [] => false
  | c :: rest =>
    if c = '|' && beginsWith "bash".data (rest.dropWhile jsWs) then true
    else if isLineTerm c then false
    else pipeBashFrom rest

/-- `/curl.*\|\s*bash/` anchored at the head. -/
def pat5At (cs : List Char) : Bool :=
  match dropLit "curl".data cs with
  | some r => pipeBashFrom r
  | none => false

/-- `/wget.*\|\s*bash/` anchored at the head. -/
def pat6At (cs : List Char) : Bool :=
  match dropLit "wget".data cs with
  | some r => pipeBashFrom r
  | none => false

/-- `/eval\s+\$\(/` anchored at the head. -/
def pat7At (cs : List Char) : Bool :=
  (((dropLit "eval".data cs).bind ws1).bind (dropLit "$(".data)).isSome

/-- `:\|:&\s*\};:` scanned for within the `.`-matchable region. -/
def forkTailFrom : List Char → Bool
  | [] => false
  | c :: rest =>
    (match dropLit ":|:&".data (c :: rest) with
     | some r => beginsWith "\x7d;:".data (r.dropWhile jsWs)
     | none => false) ||
    (if isLineTerm c then false else forkTailFrom rest)

/-- `/:\(\)\{.*:\|:&\s*\};:/` anchored at the head. -/
def pat8At (cs : List Char) : Bool :=
  match dropLit ":()\x7b".data cs with
  | some r => forkTailFrom r
  | none => false

/-! ## The command validator (`command-validator.ts`) -/

/-- `severity` field values of `CommandValidationResult`. -/
inductive Severity where
  | warning
  | error
deriving DecidableEq, Repr

/-- `CommandValidationResult` from `command-validator.ts`. -/
structure CommandValidationResult where
  isValid : Bool
  reason : Option String := none
  severity : Option Severity := none
deriving DecidableEq, Repr

/-- `DANGEROUS_COMMANDS`, in object-key insertion order (the order
`Object.entries` iterates them in). -/
def DANGEROUS_COMMANDS : List (String × Severity × String) :=
  [ ("rm -rf /", Severity.error, "Attempting to delete root directory"),
    ("rm -rf /*", Severity.error, "Attempting to delete all files in root"),
    ("rm -rf ~", Severity.error, "Attempting to delete home directory"),
    ("rm -rf $HOME", Severity.error, "Attempting to delete home directory"),
    ("mkfs", Severity.error, "Attempting to format filesystem"),
    ("dd if=", Severity.error, "Direct disk write operation"),
    (":()\x7b :|:& \x7d;:", Severity.error, "Fork bomb detected") ]

/-- `DANGEROUS_PATTERNS`, in array order, each regex realised by its
anchored matcher wrapped in a search. -/
def DANGEROUS_PATTERNS : List ((List Char → Bool) × Severity × String) :=
  [ (searchSuffix pat1At, Severity.error,
      "Attempting to recursively delete from root directory"),
    (searchSuffix pat2At, Severity.warning, "Recursive deletion with wildcards"),
    (searchSuffix pat3At, Severity.error, "Attempting to write directly to disk device"),
    (searchSuffix pat4At, Severity.warning, "Setting overly permissive permissions on root"),
    (searchSuffix pat5At, Severity.warning, "Piping remote script directly to bash"),
    (searchSuffix pat6At, Severity.warning, "Piping remote script directly to bash"),
    (searchSuffix pat7At, Severity.warning, "Using eval with command substitution"),
    (searchSuffix pat8At, Severity.error, "Fork bomb detected") ]

/-- First entry of `DANGEROUS_COMMANDS` that matches exactly or as a substring. -/
def findDangerousCommand (trimmed : String) :
    Option (Severity × String) :=
  (DANGEROUS_COMMANDS.find? fun e =>
    trimmed == e.1 || containsSub e.1.data trimmed.data).map Prod.snd

/-- First entry of `DANGEROUS_PATTERNS` whose regex tests true. -/
def findDangerousPattern (trimmed : String) :
    Option (Severity × String) :=
  (DANGEROUS_PATTERNS.find? fun e => e.1 trimmed.data).map Prod.snd

/-- `validateCommand` from `command-validator.ts`: trim; empty check;
exact/substring dangerous-command set; regex rule set (first match
wins); otherwise valid. -/
def validateCommand (command : String) : CommandValidationResult :=
  let trimmed := trimJs command
  if trimmed = "" then
    { isValid := false, reason := some "Empty command", severity := some Severity.error }
  else
    match findDangerousCommand trimmed with
    | some (sev, reason) => { isValid := false, reason := some reason, severity := some sev }
    | none =>
      match findDangerousPattern trimmed with
      | some (sev, reason) => { isValid := false, reason := some reason, severity := some sev }
      | none => { isValid := true }

/-- `HIGH_RISK_COMMANDS` from `command-validator.ts`. -/
def HIGH_RISK_COMMANDS : List String :=
  ["rm", "rmdir", "unlink", "dd", "mkfs", "fdisk", "chmod", "chown",
   "kill", "killall", "shutdown", "reboot", "halt", "init"]

/-- `isHighRiskCommand`: first whitespace-delimited token of the trimmed
command is in the high-risk verb set
(`command.trim().split(/\s+/)[0]`). -/
def isHighRiskCommand (command : String) : Bool :=
  let firstWord := String.mk ((trimJs command).data.takeWhile (fun c => !jsWs c))
  HIGH_RISK_COMMANDS.contains firstWord

/-- `getCommandWarningMessage` from `command-validator.ts`. -/
def getCommandWarningMessage (command : String) : Option String :=
  let validation := validateCommand command
  if validation.isValid = false then
    let severityEmoji := if validation.severity = some Severity.error then "🚫" else "⚠️"
    some (severityEmoji ++ " " ++ validation.reason.getD "")
  else if isHighRiskCommand command then
    some "⚠️ This command modifies system state and requires confirmation"
  else
    none

/-! ## The rate limiter (`CommandRateLimiter` in `command-validator.ts`)

Timestamps (`Date.now()` values) are modelled as `Int`. -/

/-- Result of `CommandRateLimiter.canExecute`. -/
structure CanExecuteResult where
  allowed : Bool
  reason : Option String := none
  retryAfter : Option Int := none
deriving DecidableEq, Repr

/-- `CommandRateLimiter`'s persistent fields. -/
structure CommandRateLimiter where
  commandHistory : List (Int × String) := []
  maxCommandsPerMinute : Nat := 30
  windowMs : Int := 60000
deriving DecidableEq, Repr

/-- `Math.ceil (a / b)` for integer `a` and positive integer `b`. -/
def ceilDivInt (a b : Int) : Int := -((-a).fdiv b)

/-- `CommandRateLimiter.getStats()` shape. -/
structure RateLimiterStats where
  commandsInWindow : Nat
  maxCommands : Nat
deriving DecidableEq, Repr

namespace CommandRateLimiter

/-- `canExecute(command)`: purge entries older than `windowMs`, then
either reject (when the purged window is already at `maxCommandsPerMinute`)
with `retryAfter = Math.ceil((oldest.timestamp + windowMs - now) / 1000)`,
or record `(now, command)` and accept. Returns the result together with
the mutated limiter. (When `maxCommandsPerMinute = 0` and the window is
empty the JavaScript code would fault on `commandHistory[0]`; the model
uses a default head, a case no caller exercises.) -/
def canExecute (rl : CommandRateLimiter) (now : Int) (command : String) :
    CanExecuteResult × CommandRateLimiter :=
  let hist := rl.commandHistory.filter (fun e => now - e.1 < rl.windowMs)
  if rl.maxCommandsPerMinute ≤ hist.length then
    let oldest := hist.headD (0, "")
    let retryAfter := ceilDivInt (oldest.1 + rl.windowMs - now) 1000
    ({ allowed := false,
       reason := some ("Rate limit exceeded: " ++ toString rl.maxCommandsPerMinute ++
         " commands per minute"),
       retryAfter := some retryAfter },
     { rl with commandHistory := hist })
  else
    ({ allowed := true }, { rl with commandHistory := hist ++ [(now, command)] })

/-- `reset()`: clear all recorded timestamps. -/
def reset (rl : CommandRateLimiter) : CommandRateLimiter :=
  { rl with commandHistory := [] }

/-- `getStats()` (utilization fraction is determined by the two counts
and omitted: JavaScript computes it in floating point). -/
def getStats (rl : CommandRateLimiter) (now : Int) : RateLimiterStats :=
  { commandsInWindow :=
      (rl.commandHistory.filter (fun e => now - e.1 < rl.windowMs)).length,
    maxCommands := rl.maxCommandsPerMinute }

end CommandRateLimiter

/-! ## `BashTool.execute` (`bash.ts`)

`execute` runs: (1) `validateCommand`, returning a blocked result on
failure; (2) `rateLimiter.canExecute`, returning a rate-limited result
on failure; (3) the confirmation gate
`isHighRiskCommand(command) || (!sessionFlags.bashCommands && !sessionFlags.allOperations)`;
(4) the actual execution (`cd` handling / `execAsync`), which is
external process I/O and is abstracted as the single outcome
`executed`. The operator's decision on a confirmation request is a
parameter. -/

/-- The session-scoped "don't ask again" flags consulted by `execute`. -/
structure SessionFlags where
  bashCommands : Bool
  allOperations : Bool
deriving DecidableEq, Repr

/-- The operator's answer to a confirmation request. -/
structure ConfirmationDecision where
  confirmed : Bool
  feedback : Option String := none
deriving DecidableEq, Repr

/-- Observable outcome of `BashTool.execute` up to the point where the
command is actually handed to the shell. -/
inductive ExecOutcome where
  /-- Step 1 failed: `{success:false, error:"Command blocked for safety: …"}`. -/
  | blockedValidation (error : String)
  /-- Step 2 failed: `{success:false, error:"… Retry after …s"}`. -/
  | blockedRateLimit (error : String)
  /-- Confirmation requested and refused: `{success:false, error: feedback || …}`. -/
  | cancelled (error : String)
  /-- All gates passed; the command is executed (external effect abstracted). -/
  | executed
deriving DecidableEq, Repr

/-- Trace of one `BashTool.execute` call: its outcome, whether a
confirmation request was issued, and the rate limiter state afterwards. -/
structure ExecTrace where
  outcome : ExecOutcome
  askedConfirmation : Bool
  rateLimiterAfter : CommandRateLimiter
deriving DecidableEq, Repr

/-- `confirmationResult.feedback || 'Command execution cancelled by user'`:
JavaScript `||` treats both a missing feedback and the empty string as
falsy, so either yields the default message. -/
def feedbackOrDefault (feedback : Option String) : String :=
  match feedback with
  | some f => if f = "" then "Command execution cancelled by user" else f
  | none => "Command execution cancelled by user"

/-- Shallow embedding of `BashTool.execute`'s gate sequence. -/
def bashExecute (command : String) (rl : CommandRateLimiter) (now : Int)
    (sessionFlags : SessionFlags) (decision : ConfirmationDecision) : ExecTrace :=
  let validation := validateCommand command
  if validation.isValid = false then
    { outcome := ExecOutcome.blockedValidation
        ("Command blocked for safety: " ++
          ((getCommandWarningMessage command).getD (validation.reason.getD ""))),
      askedConfirmation := false,
      rateLimiterAfter := rl }
  else
    let rateLimitCheck := rl.canExecute now command
    if rateLimitCheck.1.allowed = false then
      { outcome := ExecOutcome.blockedRateLimit
          (rateLimitCheck.1.reason.getD "" ++ ". Retry after " ++
            toString (rateLimitCheck.1.retryAfter.getD 0) ++ "s"),
        askedConfirmation := false,
        rateLimiterAfter := rateLimitCheck.2 }
    else
      let needsConfirmation := isHighRiskCommand command ||
        (!sessionFlags.bashCommands && !sessionFlags.allOperations)
      if needsConfirmation then
        if decision.confirmed then
          { outcome := ExecOutcome.executed,
            askedConfirmation := true,
            rateLimiterAfter := rateLimitCheck.2 }
        else
          { outcome := ExecOutcome.cancelled (feedbackOrDefault decision.feedback),
            askedConfirmation := true,
            rateLimiterAfter := rateLimitCheck.2 }
      else
        { outcome := ExecOutcome.executed,
          askedConfirmation := false,
          rateLimiterAfter := rateLimitCheck.2 }

/-! ## Chat entries and history (`chat-interface.tsx`)

`ChatEntry` as used by the streaming loop. The `timestamp: new Date()`
field carries wall-clock time used only for display and is omitted from
the model; no claim mentions it. -/

/-- The `type` discriminator of a `ChatEntry`. -/
inductive EntryType where
  | user
  | assistant
  | tool_call
  | tool_result
deriving DecidableEq, Repr

/-- A tool call reference produced by the model stream. -/
structure ToolCallRef where
  id : String
  name : String := ""
deriving DecidableEq, Repr

/-- The uniform tool result shape `{success, output?, error?}`. -/
structure ToolResult where
  success : Bool
  output : Option String := none
  error : Option String := none
deriving DecidableEq, Repr

/-- A conversation history entry. -/
structure ChatEntry where
  type : EntryType
  content : String
  isStreaming : Bool := false
  toolCall : Option ToolCallRef := none
  toolCalls : Option (List ToolCallRef) := none
  toolResult : Option ToolResult := none
deriving DecidableEq, Repr

/-- The size limiting inside `sizeLimitedSetChatHistory`:
`next.length > 100 ? next.slice(-100) : next`. -/
def sizeLimited (l : List ChatEntry) : List ChatEntry :=
  if 100 < l.length then l.drop (l.length - 100) else l

/-- `addToHistory`: append entries, then size-limit. -/
def addToHistory (history entries : List ChatEntry) : List ChatEntry :=
  sizeLimited (history ++ entries)

/-- A plain user entry (`{type: "user", content, timestamp}`). -/
def mkUserEntry (content : String) : ChatEntry :=
  { type := EntryType.user, content := content }

/-! ## The streaming dispatcher state

`DispState` collects the mutable pieces `processInitialMessage` works
with: the `chatHistory` React state, the `streamingContentBuffer` ref,
whether `streamingUpdateTimer.current` is non-null, whether the local
variable `streamingEntry` is non-null, the `isStreaming` React state and
the `tokenCount` React state. -/

/-- State of the streaming loop. -/
structure DispState where
  chatHistory : List ChatEntry
  streamingContentBuffer : String
  timerArmed : Bool
  streamingEntryActive : Bool
  isStreaming : Bool
  tokenCount : Nat
deriving DecidableEq, Repr

/-- The map inside `flushStreamingContent`:
`prev.map((entry, idx) => idx === prev.length - 1 && entry.isStreaming ? {...entry, content: entry.content + content} : entry)`.
Only the final index can satisfy the guard, so this updates the last
entry exactly when it is streaming. -/
def appendToLastIfStreaming (content : String) : List ChatEntry → List ChatEntry
  | [] => []
  | [e] =>
    if e.isStreaming then [{ e with content := e.content ++ content }] else [e]
  | e :: e2 :: rest => e :: appendToLastIfStreaming content (e2 :: rest)

/-- `flushStreamingContent`: if the buffer is non-empty, move its
contents onto the trailing streaming entry (through
`sizeLimitedSetChatHistory`) and clear the buffer; otherwise no-op. -/
def flushStreamingContent (s : DispState) : DispState :=
  if s.streamingContentBuffer ≠ "" then
    { s with
      streamingContentBuffer := "",
      chatHistory :=
        sizeLimited (appendToLastIfStreaming s.streamingContentBuffer s.chatHistory) }
  else s

/-- Stream events consumed by the loop, plus the quiescence-timer
callback (`setTimeout(..., 50)` firing) as an explicit event so that
arbitrary interleavings of timer fires with stream events can be
expressed. -/
inductive Ev where
  | content (text : String)
  | token_count (tokenCount : Nat)
  | tool_calls (toolCalls : List ToolCallRef)
  | tool_result (toolCall : ToolCallRef) (toolResult : ToolResult)
  | done
  | timerFire
deriving DecidableEq, Repr

/-- The streaming entry created by the first non-empty content chunk of
a turn. -/
def newStreamingEntry (text : String) : ChatEntry :=
  { type := EntryType.assistant, content := text, isStreaming := true }

/-- The `tool_calls` map: stop streaming for the current assistant
message and attach the call list. -/
def attachToolCalls (calls : List ToolCallRef) (e : ChatEntry) : ChatEntry :=
  if e.isStreaming then { e with isStreaming := false, toolCalls := some calls }
  else e

/-- The placeholder `tool_call` entry (`content: "Executing..."`). -/
def pendingToolCallEntry (c : ToolCallRef) : ChatEntry :=
  { type := EntryType.tool_call, content := "Executing...", toolCall := some c }

/-- `chunk.toolResult?.success ? chunk.toolResult?.output || "Success" :
chunk.toolResult?.error || "Error occurred"` (`||` treats the empty
string as falsy). -/
def toolResultContent (res : ToolResult) : String :=
  if res.success then
    match res.output with
    | some o => if o = "" then "Success" else o
    | none => "Success"
  else
    match res.error with
    | some e => if e = "" then "Error occurred" else e
    | none => "Error occurred"

/-- The per-entry map of the `tool_result` case: streaming entries are
marked non-streaming; otherwise a `tool_call` entry whose id matches is
replaced by a `tool_result` entry; all other entries are unchanged. -/
def toolResultTransform (tc : ToolCallRef) (res : ToolResult) (e : ChatEntry) :
    ChatEntry :=
  if e.isStreaming then { e with isStreaming := false }
  else if e.type = EntryType.tool_call ∧ e.toolCall.map ToolCallRef.id = some tc.id then
    { e with
      type := EntryType.tool_result,
      content := toolResultContent res,
      toolResult := some res }
  else e

/-- The `done` map: `entry.isStreaming ? {...entry, isStreaming: false} : entry`. -/
def clearStreamingFlag (e : ChatEntry) : ChatEntry :=
  if e.isStreaming then { e with isStreaming := false } else e

/-- One step of the `switch (chunk.type)` dispatch in
`processInitialMessage`, plus the timer callback. -/
def step (s : DispState) : Ev → DispState
  | Ev.content text =>
    -- `if (chunk.content)`: the empty string is falsy and is skipped.
    if text = "" then s
    else if s.streamingEntryActive = false then
      { s with
        chatHistory := addToHistory s.chatHistory [newStreamingEntry text],
        streamingEntryActive := true }
    else
      { s with
        streamingContentBuffer := s.streamingContentBuffer ++ text,
        timerArmed := true }
  | Ev.token_count n => { s with tokenCount := n }
  | Ev.tool_calls calls =>
    let s1 := flushStreamingContent { s with timerArmed := false }
    let s2 :=
      { s1 with
        chatHistory := sizeLimited (s1.chatHistory.map (attachToolCalls calls)),
        streamingEntryActive := false }
    { s2 with
      chatHistory := addToHistory s2.chatHistory (calls.map pendingToolCallEntry) }
  | Ev.tool_result tc res =>
    { s with
      chatHistory := sizeLimited (s.chatHistory.map (toolResultTransform tc res)),
      streamingEntryActive := false }
  | Ev.done =>
    let s1 := flushStreamingContent { s with timerArmed := false }
    let s2 :=
      if s1.streamingEntryActive then
        { s1 with chatHistory := sizeLimited (s1.chatHistory.map clearStreamingFlag) }
      else s1
    { s2 with isStreaming := false }
  | Ev.timerFire =>
    if s.timerArmed then flushStreamingContent { s with timerArmed := false } else s

/-- The synthetic assistant entry of the `catch` block:
`{type: "assistant", content: "Error: " + error.message, timestamp}`. -/
def errorEntry (message : String) : ChatEntry :=
  { type := EntryType.assistant, content := "Error: " ++ message }

/-- The `catch` block: append the error entry and clear the global
`isStreaming` indicator. (It does not touch `isStreaming` flags of
entries already in history.) -/
def catchFault (message : String) (s : DispState) : DispState :=
  { s with
    chatHistory := addToHistory s.chatHistory [errorEntry message],
    isStreaming := false }

/-- Consume a list of events in arrival order. -/
def applyEvents (s : DispState) (evs : List Ev) : DispState :=
  evs.foldl step s

/-- Start of a turn of `processInitialMessage`'s loop: the local
`streamingEntry` is `null` and `setIsStreaming(true)` has run. The
buffer and timer refs persist across turns. -/
def turnStart (s : DispState) : DispState :=
  { s with streamingEntryActive := false, isStreaming := true }

/-- A fault escaping event consumption aborts the loop and runs the
`catch` block; `none` means the turn's events completed normally. -/
def applyFault : Option String → DispState → DispState
  | none, s => s
  | some m, s => catchFault m s

/-- One full turn: events consumed from a fresh turn start, then the
optional escaping fault. -/
def runTurn (s : DispState) (t : List Ev × Option String) : DispState :=
  applyFault t.2 (applyEvents (turnStart s) t.1)

/-- An initial dispatcher state over a given starting history. -/
def initDispState (h : List ChatEntry) : DispState :=
  { chatHistory := h, streamingContentBuffer := "", timerArmed := false,
    streamingEntryActive := false, isStreaming := false, tokenCount := 0 }

/-- Number of history entries marked `isStreaming`. -/
def countStreaming (l : List ChatEntry) : Nat :=
  (l.filter (fun e => e.isStreaming)).length

/-- The content payloads of a list of events, in order. -/
def deltasOf (evs : List Ev) : List String :=
  evs.filterMap fun e =>
    match e with
    | Ev.content d => some d
    | _ => none

/-- Events allowed in a pure content phase: content chunks and timer
fires. -/
def isContentOrTimer : Ev → Bool
  | Ev.content _ => true
  | Ev.timerFire => true
  | _ => false

/-- `HistoryStore.append` invoked once per entry, starting from an empty
history (the fold of `addToHistory` over the appended entries). -/
def histAfterAppends (es : List ChatEntry) : List ChatEntry :=
  es.foldl (fun h e => addToHistory h [e]) []

/-- Invariant tying the streaming loop's state to the concatenation
`acc` of the content deltas consumed so far within a content-only turn:
either no non-empty delta has arrived yet and the state is untouched, or
the history ends in the turn's streaming assistant entry and that
entry's content plus the pending buffer equals `acc`. -/
def C1Inv (h0 : List ChatEntry) (acc : String) (s : DispState) : Prop :=
  (acc = "" ∧ s = turnStart (initDispState h0)) ∨
  (∃ hs e, s.chatHistory = hs ++ [e] ∧ e.type = EntryType.assistant ∧
    e.isStreaming = true ∧ e.content ++ s.streamingContentBuffer = acc ∧
    s.streamingEntryActive = true ∧ s.chatHistory.length ≤ 100 ∧
    s.isStreaming = true)

/-- The "at most one streaming entry" invariant of the dispatcher,
strengthened with the fact that while the local `streamingEntry` is
`null` no history entry is streaming. -/
def DispInv (s : DispState) : Prop :=
  countStreaming s.chatHistory ≤ 1 ∧
  (s.streamingEntryActive = false → countStreaming s.chatHistory = 0)

end GrokCli

/-! ## C6 -/

/-- **C6.** `validateCommand` evaluates its checks in the fixed order
(trimmed-empty, then the catastrophic exact/substring command set, then
the regex risk rules, first match winning — the order in which
`validateCommand` above is written), so that `validate("rm -rf /")`
returns `isValid=false` with severity `error`, `validate("ls -la")`
returns `isValid=true`, and `validate("")` returns `isValid=false` with
reason `"Empty command"`. -/
theorem C6_validateCommand_fixed_order :
    GrokCli.validateCommand "rm -rf /" =
      { isValid := false,
        reason := some "Attempting to delete root directory",
        severity := some GrokCli.Severity.error } ∧
    GrokCli.validateCommand "ls -la" = { isValid := true } ∧
    GrokCli.validateCommand "" =
      { isValid := false,
        reason := some "Empty command",
        severity := some GrokCli.Severity.error } := by
  refine ⟨?_, ?_, ?_⟩ <;> decide

/-! ## C8 -/

/-- **C8.** `canExecute` first purges window entries older than
`windowDuration`; it accepts exactly when the remaining count is below
`maxCount` (recording the current timestamp), and otherwise rejects with
a positive `retryAfter`; in particular for `CommandRateLimiter(3, 1000)`
three admissions within the window succeed, a fourth within the same
window fails with `retryAfter > 0`, an admission after the window
elapses succeeds, and `reset()` immediately restores full capacity. -/
theorem C8_rate_limiter_window :
    (∀ (rl : GrokCli.CommandRateLimiter) (now : Int) (cmd : String),
      ((rl.canExecute now cmd).1.allowed = true) ↔
        (rl.commandHistory.filter (fun e => now - e.1 < rl.windowMs)).length <
          rl.maxCommandsPerMinute) ∧
    (let rl0 : GrokCli.CommandRateLimiter :=
      { commandHistory := [], maxCommandsPerMinute := 3, windowMs := 1000 }
     let r1 := rl0.canExecute 0 "c1"
     let r2 := r1.2.canExecute 100 "c2"
     let r3 := r2.2.canExecute 200 "c3"
     let r4 := r3.2.canExecute 300 "c4"
     let r5 := r4.2.canExecute 1000 "c5"
     let r6 := (r4.2.reset).canExecute 300 "c6"
     r1.1.allowed = true ∧ r2.1.allowed = true ∧ r3.1.allowed = true ∧
     r4.1.allowed = false ∧ r4.1.retryAfter = some 1 ∧
     r5.1.allowed = true ∧
     r4.2.reset.commandHistory = [] ∧ r6.1.allowed = true) := by
  constructor
  · intro rl now cmd
    simp only [GrokCli.CommandRateLimiter.canExecute]
    split
    · rename_i h
      simpa using h
    · rename_i h
      simpa using Nat.lt_of_not_le h
  · decide

/-! ## C7 -/

/-- **C7.** For every command whose first whitespace-delimited token is
in the fixed high-risk verb set and which passes validation and rate
limiting, `BashTool.execute` requests interactive confirmation and never
runs the command unless the operator confirms — for every value of the
session "don't ask again" flags. -/
theorem C7_high_risk_requires_confirmation
    (command : String) (rl : GrokCli.CommandRateLimiter) (now : Int)
    (flags : GrokCli.SessionFlags) (decision : GrokCli.ConfirmationDecision)
    (hrisk : GrokCli.isHighRiskCommand command = true)
    (hvalid : (GrokCli.validateCommand command).isValid = true)
    (hrate : (rl.canExecute now command).1.allowed = true) :
    (GrokCli.bashExecute command rl now flags decision).askedConfirmation = true ∧
    ((GrokCli.bashExecute command rl now flags decision).outcome =
        GrokCli.ExecOutcome.executed → decision.confirmed = true) ∧
    (decision.confirmed = false →
      (GrokCli.bashExecute command rl now flags decision).outcome =
        GrokCli.ExecOutcome.cancelled
          (GrokCli.feedbackOrDefault decision.feedback)) := by
  simp only [GrokCli.bashExecute, hvalid, hrate, hrisk, Bool.true_or, if_true]
  rcases hc : decision.confirmed with _ | _ <;> simp

/-- Witness for C7: `"rm -rf build"` is high-risk (`rm`), passes
validation and a fresh rate limiter, and with both session flags set and
a rejecting operator it is cancelled after a confirmation request. -/
theorem C7_high_risk_requires_confirmation_witness :
    (GrokCli.bashExecute "rm -rf build" { commandHistory := [] } 0
        { bashCommands := true, allOperations := true }
        { confirmed := false, feedback := none }).askedConfirmation = true ∧
    ((GrokCli.bashExecute "rm -rf build" { commandHistory := [] } 0
        { bashCommands := true, allOperations := true }
        { confirmed := false, feedback := none }).outcome =
        GrokCli.ExecOutcome.executed →
      ({ confirmed := false, feedback := none } :
        GrokCli.ConfirmationDecision).confirmed = true) ∧
    (({ confirmed := false, feedback := none } :
        GrokCli.ConfirmationDecision).confirmed = false →
      (GrokCli.bashExecute "rm -rf build" { commandHistory := [] } 0
        { bashCommands := true, allOperations := true }
        { confirmed := false, feedback := none }).outcome =
        GrokCli.ExecOutcome.cancelled
          (GrokCli.feedbackOrDefault none)) :=
  C7_high_risk_requires_confirmation "rm -rf build" { commandHistory := [] } 0
    { bashCommands := true, allOperations := true }
    { confirmed := false, feedback := none }
    (by decide) (by decide) (by decide)

/-! ## C10 -/

/-- **C10.** For every command rejected by `validateCommand`,
`BashTool.execute` returns the blocked result without consulting the
rate limiter: the limiter state (and hence its recorded timestamps and
reported stats) is unchanged and no confirmation is requested. -/
theorem C10_validation_block_frames_rate_limiter
    (command : String) (rl : GrokCli.CommandRateLimiter) (now : Int)
    (flags : GrokCli.SessionFlags) (decision : GrokCli.ConfirmationDecision)
    (hinvalid : (GrokCli.validateCommand command).isValid = false) :
    (GrokCli.bashExecute command rl now flags decision).rateLimiterAfter = rl ∧
    (GrokCli.bashExecute command rl now flags decision).askedConfirmation = false ∧
    (GrokCli.bashExecute command rl now flags decision).outcome =
      GrokCli.ExecOutcome.blockedValidation
        ("Command blocked for safety: " ++
          ((GrokCli.getCommandWarningMessage command).getD
            ((GrokCli.validateCommand command).reason.getD ""))) ∧
    (GrokCli.bashExecute command rl now flags decision).rateLimiterAfter.getStats now =
      rl.getStats now := by
  simp [GrokCli.bashExecute, hinvalid]

/-- Witness for C10: the blocked command `"rm -rf /"` leaves a
rate limiter holding one timestamp untouched. -/
theorem C10_validation_block_frames_rate_limiter_witness :
    (GrokCli.bashExecute "rm -rf /" { commandHistory := [(5, "x")] } 10
        { bashCommands := false, allOperations := false }
        { confirmed := true, feedback := none }).rateLimiterAfter =
      { commandHistory := [(5, "x")] } ∧
    (GrokCli.bashExecute "rm -rf /" { commandHistory := [(5, "x")] } 10
        { bashCommands := false, allOperations := false }
        { confirmed := true, feedback := none }).askedConfirmation = false ∧
    (GrokCli.bashExecute "rm -rf /" { commandHistory := [(5, "x")] } 10
        { bashCommands := false, allOperations := false }
        { confirmed := true, feedback := none }).outcome =
      GrokCli.ExecOutcome.blockedValidation
        ("Command blocked for safety: " ++
          ((GrokCli.getCommandWarningMessage "rm -rf /").getD
            ((GrokCli.validateCommand "rm -rf /").reason.getD ""))) ∧
    (GrokCli.bashExecute "rm -rf /" { commandHistory := [(5, "x")] } 10
        { bashCommands := false, allOperations := false }
        { confirmed := true, feedback := none }).rateLimiterAfter.getStats 10 =
      ({ commandHistory := [(5, "x")] } : GrokCli.CommandRateLimiter).getStats 10 :=
  C10_validation_block_frames_rate_limiter "rm -rf /" { commandHistory := [(5, "x")] } 10
    { bashCommands := false, allOperations := false }
    { confirmed := true, feedback := none } (by decide)

/-! ## Helper lemmas about the history and the dispatcher -/

namespace GrokCli

theorem sizeLimited_eq_self {l : List ChatEntry} (h : l.length ≤ 100) :
    sizeLimited l = l := by
  rw [sizeLimited, if_neg (by omega)]

theorem length_sizeLimited (l : List ChatEntry) :
    (sizeLimited l).length = min l.length 100 := by
  rw [sizeLimited]
  split
  · rw [List.length_drop]
    omega
  · omega

theorem sizeLimited_append_single (l : List ChatEntry) (e : ChatEntry) :
    ∃ l', sizeLimited (l ++ [e]) = l' ++ [e] := by
  rw [sizeLimited]
  split
  · rename_i h
    rw [List.length_append] at h
    refine ⟨l.drop ((l ++ [e]).length - 100), ?_⟩
    rw [List.drop_append_of_le_length
      (by simp only [List.length_append, List.length_singleton]; omega)]
  · exact ⟨l, rfl⟩

theorem countStreaming_append (a b : List ChatEntry) :
    countStreaming (a ++ b) = countStreaming a + countStreaming b := by
  simp [countStreaming, List.filter_append]

theorem countStreaming_cons (a : ChatEntry) (t : List ChatEntry) :
    countStreaming (a :: t) = (if a.isStreaming then 1 else 0) + countStreaming t := by
  simp only [countStreaming, List.filter_cons]
  split
  · simp [Nat.add_comm]
  · simp

theorem countStreaming_sizeLimited_le (l : List ChatEntry) :
    countStreaming (sizeLimited l) ≤ countStreaming l := by
  rw [sizeLimited]
  split
  · exact List.Sublist.length_le (List.Sublist.filter _ (List.drop_sublist _ _))
  · exact le_rfl

theorem countStreaming_appendToLast (buf : String) (l : List ChatEntry) :
    countStreaming (appendToLastIfStreaming buf l) = countStreaming l := by
  induction l with
  | nil => rfl
  | cons a t ih =>
    cases t with
    | nil =>
      cases h : a.isStreaming <;>
        simp [appendToLastIfStreaming, h, countStreaming, List.filter]
    | cons b t2 =>
      simp only [appendToLastIfStreaming]
      rw [countStreaming_cons, countStreaming_cons, ih]

theorem countStreaming_map_zero {α : Type} (f : α → ChatEntry)
    (hf : ∀ e, (f e).isStreaming = false) (l : List α) :
    countStreaming (l.map f) = 0 := by
  rw [countStreaming, List.length_eq_zero, List.filter_eq_nil_iff]
  intro a ha
  obtain ⟨e, _, rfl⟩ := List.mem_map.mp ha
  simp [hf]

theorem attachToolCalls_not_streaming (calls : List ToolCallRef) (e : ChatEntry) :
    (attachToolCalls calls e).isStreaming = false := by
  cases h : e.isStreaming <;> simp [attachToolCalls, h]

theorem toolResultTransform_not_streaming (tc : ToolCallRef) (res : ToolResult)
    (e : ChatEntry) : (toolResultTransform tc res e).isStreaming = false := by
  cases h : e.isStreaming
  · rw [toolResultTransform, if_neg (by simp [h])]
    split
    · exact h
    · exact h
  · simp [toolResultTransform, h]

theorem clearStreamingFlag_not_streaming (e : ChatEntry) :
    (clearStreamingFlag e).isStreaming = false := by
  cases h : e.isStreaming <;> simp [clearStreamingFlag, h]

end GrokCli

namespace GrokCli

theorem step_tool_calls_history (s : DispState) (calls : List ToolCallRef) :
    (step s (Ev.tool_calls calls)).chatHistory =
      addToHistory
        (sizeLimited
          ((flushStreamingContent { s with timerArmed := false }).chatHistory.map
            (attachToolCalls calls)))
        (calls.map pendingToolCallEntry) := rfl

theorem step_tool_calls_active (s : DispState) (calls : List ToolCallRef) :
    (step s (Ev.tool_calls calls)).streamingEntryActive = false := rfl

theorem step_tool_result_history (s : DispState) (tc : ToolCallRef) (res : ToolResult) :
    (step s (Ev.tool_result tc res)).chatHistory =
      sizeLimited (s.chatHistory.map (toolResultTransform tc res)) := rfl

theorem step_tool_result_active (s : DispState) (tc : ToolCallRef) (res : ToolResult) :
    (step s (Ev.tool_result tc res)).streamingEntryActive = false := rfl

theorem step_tool_result_buffer (s : DispState) (tc : ToolCallRef) (res : ToolResult) :
    (step s (Ev.tool_result tc res)).streamingContentBuffer =
      s.streamingContentBuffer := rfl

theorem flush_buffer_or (s : DispState) :
    flushStreamingContent s = s ∨
      flushStreamingContent s =
        { s with
          streamingContentBuffer := "",
          chatHistory :=
            sizeLimited (appendToLastIfStreaming s.streamingContentBuffer s.chatHistory) } := by
  by_cases h : s.streamingContentBuffer = ""
  · left
    rw [flushStreamingContent, if_neg (by simpa using h)]
  · right
    rw [flushStreamingContent, if_pos (by simpa using h)]

theorem dispInv_flush (s : DispState) (h : DispInv s) :
    DispInv (flushStreamingContent s) := by
  obtain ⟨h1, h2⟩ := h
  rcases flush_buffer_or s with he | he <;> rw [he]
  · exact ⟨h1, h2⟩
  · have hle : countStreaming
        (sizeLimited (appendToLastIfStreaming s.streamingContentBuffer s.chatHistory)) ≤
        countStreaming s.chatHistory :=
      le_of_le_of_eq (countStreaming_sizeLimited_le _) (countStreaming_appendToLast _ _)
    refine ⟨le_trans hle h1, fun ha => ?_⟩
    have h0 := h2 ha
    have : countStreaming
        (sizeLimited (appendToLastIfStreaming s.streamingContentBuffer s.chatHistory)) = 0 := by
      omega
    exact this

theorem dispInv_step (s : DispState) (ev : Ev) (h : DispInv s) : DispInv (step s ev) := by
  obtain ⟨h1, h2⟩ := h
  cases ev with
  | content text =>
    by_cases ht : text = ""
    · have he : step s (Ev.content text) = s := by simp [step, ht]
      rw [he]
      exact ⟨h1, h2⟩
    · by_cases ha : s.streamingEntryActive = false
      · have he : step s (Ev.content text) =
            { s with
              chatHistory := addToHistory s.chatHistory [newStreamingEntry text],
              streamingEntryActive := true } := by
          simp [step, ht, ha]
        rw [he]
        have h0 := h2 ha
        have hle : countStreaming (addToHistory s.chatHistory [newStreamingEntry text]) ≤
            countStreaming s.chatHistory + countStreaming [newStreamingEntry text] := by
          rw [addToHistory, ← countStreaming_append]
          exact countStreaming_sizeLimited_le _
        have hone : countStreaming [newStreamingEntry text] = 1 := rfl
        refine ⟨?_, fun hfalse => ?_⟩
        · have : countStreaming (addToHistory s.chatHistory [newStreamingEntry text]) ≤ 1 := by
            omega
          exact this
        · exact absurd hfalse (by simp)
      · have he : step s (Ev.content text) =
            { s with
              streamingContentBuffer := s.streamingContentBuffer ++ text,
              timerArmed := true } := by
          simp [step, ht, ha]
        rw [he]
        exact ⟨h1, fun hf => h2 hf⟩
  | token_count n =>
    exact ⟨h1, fun hf => h2 hf⟩
  | tool_calls calls =>
    have hz : countStreaming
        ((flushStreamingContent { s with timerArmed := false }).chatHistory.map
          (attachToolCalls calls)) = 0 :=
      countStreaming_map_zero _ (attachToolCalls_not_streaming calls) _
    have hz2 : countStreaming (calls.map pendingToolCallEntry) = 0 :=
      countStreaming_map_zero _ (fun _ => rfl) _
    have hle1 := countStreaming_sizeLimited_le
      ((flushStreamingContent { s with timerArmed := false }).chatHistory.map
        (attachToolCalls calls))
    have hle2 := countStreaming_sizeLimited_le
      ((sizeLimited
          ((flushStreamingContent { s with timerArmed := false }).chatHistory.map
            (attachToolCalls calls))) ++ calls.map pendingToolCallEntry)
    rw [countStreaming_append] at hle2
    have hfinal : countStreaming ((step s (Ev.tool_calls calls)).chatHistory) = 0 := by
      rw [step_tool_calls_history, addToHistory]
      omega
    exact ⟨by omega, fun _ => hfinal⟩
  | tool_result tc res =>
    have hz : countStreaming (s.chatHistory.map (toolResultTransform tc res)) = 0 :=
      countStreaming_map_zero _ (toolResultTransform_not_streaming tc res) _
    have hle := countStreaming_sizeLimited_le (s.chatHistory.map (toolResultTransform tc res))
    have hfinal : countStreaming ((step s (Ev.tool_result tc res)).chatHistory) = 0 := by
      rw [step_tool_result_history]
      omega
    exact ⟨by omega, fun _ => hfinal⟩
  | done =>
    have hf := dispInv_flush { s with timerArmed := false } ⟨h1, h2⟩
    obtain ⟨hf1, hf2⟩ := hf
    by_cases hact :
        (flushStreamingContent { s with timerArmed := false }).streamingEntryActive = true
    · have he : step s Ev.done =
          { flushStreamingContent { s with timerArmed := false } with
            chatHistory := sizeLimited
              ((flushStreamingContent { s with timerArmed := false }).chatHistory.map
                clearStreamingFlag),
            isStreaming := false } := by
        simp only [step]
        rw [if_pos hact]
      rw [he]
      have hz : countStreaming
          ((flushStreamingContent { s with timerArmed := false }).chatHistory.map
            clearStreamingFlag) = 0 :=
        countStreaming_map_zero _ clearStreamingFlag_not_streaming _
      have hle := countStreaming_sizeLimited_le
        ((flushStreamingContent { s with timerArmed := false }).chatHistory.map
          clearStreamingFlag)
      have hz2 : countStreaming
          (sizeLimited
            ((flushStreamingContent { s with timerArmed := false }).chatHistory.map
              clearStreamingFlag)) = 0 := by
        omega
      have hres : countStreaming
          (sizeLimited
            ((flushStreamingContent { s with timerArmed := false }).chatHistory.map
              clearStreamingFlag)) ≤ 1 := by
        omega
      exact ⟨hres, fun _ => hz2⟩
    · have he : step s Ev.done =
          { flushStreamingContent { s with timerArmed := false } with
            isStreaming := false } := by
        simp only [step]
        rw [if_neg hact]
      rw [he]
      exact ⟨hf1, fun ha => hf2 ha⟩
  | timerFire =>
    by_cases harm : s.timerArmed = true
    · have he : step s Ev.timerFire =
          flushStreamingContent { s with timerArmed := false } := by
        simp [step, harm]
      rw [he]
      exact dispInv_flush _ ⟨h1, h2⟩
    · have he : step s Ev.timerFire = s := by simp [step, harm]
      rw [he]
      exact ⟨h1, h2⟩

theorem dispInv_catch (m : String) (s : DispState) (h : DispInv s) :
    DispInv (catchFault m s) := by
  obtain ⟨h1, h2⟩ := h
  have hz : countStreaming [errorEntry m] = 0 := rfl
  have hle : countStreaming (addToHistory s.chatHistory [errorEntry m]) ≤
      countStreaming s.chatHistory + countStreaming [errorEntry m] := by
    rw [addToHistory, ← countStreaming_append]
    exact countStreaming_sizeLimited_le _
  refine ⟨?_, fun ha => ?_⟩
  · have : countStreaming (addToHistory s.chatHistory [errorEntry m]) ≤ 1 := by omega
    exact this
  · have h0 := h2 ha
    have : countStreaming (addToHistory s.chatHistory [errorEntry m]) = 0 := by omega
    exact this

theorem dispInv_applyEvents (evs : List Ev) :
    ∀ s : DispState, DispInv s → DispInv (applyEvents s evs) := by
  induction evs with
  | nil => exact fun s h => h
  | cons ev t ih => exact fun s h => ih _ (dispInv_step s ev h)

theorem dispInv_applyFault (f : Option String) (s : DispState) (h : DispInv s) :
    DispInv (applyFault f s) := by
  cases f with
  | none => exact h
  | some m => exact dispInv_catch m s h

end GrokCli

/-! ## C9 -/

/-- **C9.** The coalescer flush is idempotent: for every state, invoking
`flushStreamingContent` twice with no accumulation in between makes the
second invocation a no-op — it appends no content to the streaming entry,
so the state (in particular the history) after the second flush equals
the state after the first. -/
theorem C9_flush_idempotent (s : GrokCli.DispState) :
    GrokCli.flushStreamingContent (GrokCli.flushStreamingContent s) =
      GrokCli.flushStreamingContent s := by
  rcases GrokCli.flush_buffer_or s with he | he <;> rw [he]
  · exact he
  · simp [GrokCli.flushStreamingContent]

/-! ## C2 -/

/-- The fold of capped single appends keeps exactly the trailing 100
entries (stated without the `> 100` hypothesis — for short lists the
`drop` is vacuous). -/
theorem histAfterAppends_eq (es : List GrokCli.ChatEntry) :
    GrokCli.histAfterAppends es = es.drop (es.length - 100) := by
  induction es using List.reverseRecOn with
  | nil => rfl
  | append_singleton t e ih =>
    have hstep : GrokCli.histAfterAppends (t ++ [e]) =
        GrokCli.addToHistory (GrokCli.histAfterAppends t) [e] := by
      rw [GrokCli.histAfterAppends, GrokCli.histAfterAppends, List.foldl_append]
      rfl
    rw [hstep, ih, GrokCli.addToHistory]
    by_cases h : t.length ≤ 99
    · have h0 : t.length - 100 = 0 := by omega
      have h1 : (t ++ [e]).length - 100 = 0 := by
        simp only [List.length_append, List.length_singleton]
        omega
      rw [h0, h1, List.drop_zero, List.drop_zero, GrokCli.sizeLimited_eq_self
        (by simp only [List.length_append, List.length_singleton]; omega)]
    · have hge : 100 ≤ t.length := by omega
      have hlen : (t.drop (t.length - 100)).length = 100 := by
        rw [List.length_drop]
        omega
      rw [GrokCli.sizeLimited, if_pos (by
        simp only [List.length_append, List.length_singleton, hlen]
        omega)]
      have h2 : (t.drop (t.length - 100) ++ [e]).length - 100 = 1 := by
        simp only [List.length_append, List.length_singleton, hlen]
      rw [h2, List.drop_append_of_le_length (by rw [hlen]; omega), List.drop_drop,
        List.drop_append_of_le_length (by
          simp only [List.length_append, List.length_singleton]
          omega)]
      have h3 : t.length - 100 + 1 = (t ++ [e]).length - 100 := by
        simp only [List.length_append, List.length_singleton]
        omega
      rw [h3]

/-- **C2.** Appending more than 100 entries one at a time leaves exactly
the most recent 100 entries in their original relative order (older
entries are evicted from the oldest end). -/
theorem C2_history_cap (es : List GrokCli.ChatEntry) (h : 100 < es.length) :
    GrokCli.histAfterAppends es = es.drop (es.length - 100) ∧
    (GrokCli.histAfterAppends es).length = 100 := by
  refine ⟨histAfterAppends_eq es, ?_⟩
  rw [histAfterAppends_eq es, List.length_drop]
  omega

/-- Witness for C2: appending 101 distinct user entries leaves exactly
the last 100 of them. -/
theorem C2_history_cap_witness :
    GrokCli.histAfterAppends ((List.range 101).map fun i =>
        GrokCli.mkUserEntry (toString i)) =
      ((List.range 101).map fun i => GrokCli.mkUserEntry (toString i)).drop
        (((List.range 101).map fun i =>
          GrokCli.mkUserEntry (toString i)).length - 100) ∧
    (GrokCli.histAfterAppends ((List.range 101).map fun i =>
        GrokCli.mkUserEntry (toString i))).length = 100 :=
  C2_history_cap _ (by simp)

/-! ## C3 -/

/-- **C3 (counterexample).** The `tool_result` case performs no flush
and does not leave history unchanged on a non-matching id: after
`content "a", content "b"` (so `"b"` sits in the coalescer buffer) a
`tool_result` whose id `"z"` matches no entry leaves the buffer still
holding `"b"` (no flush was forced) and mutates history (the streaming
entry is marked non-streaming), refuting the claim as stated. -/
theorem C3_counterexample :
    (GrokCli.applyEvents (GrokCli.turnStart (GrokCli.initDispState []))
        [GrokCli.Ev.content "a", GrokCli.Ev.content "b",
         GrokCli.Ev.tool_result { id := "z" }
           { success := true, output := some "ok" }]).streamingContentBuffer = "b" ∧
    (GrokCli.applyEvents (GrokCli.turnStart (GrokCli.initDispState []))
        [GrokCli.Ev.content "a", GrokCli.Ev.content "b",
         GrokCli.Ev.tool_result { id := "z" }
           { success := true, output := some "ok" }]).chatHistory ≠
      (GrokCli.applyEvents (GrokCli.turnStart (GrokCli.initDispState []))
        [GrokCli.Ev.content "a", GrokCli.Ev.content "b"]).chatHistory ∧
    ((GrokCli.applyEvents (GrokCli.turnStart (GrokCli.initDispState []))
        [GrokCli.Ev.content "a", GrokCli.Ev.content "b"]).chatHistory.all
      fun e => e.toolCall.isNone) = true := by
  decide

/-- **C3 (amended).** On a `tool_result` event the dispatcher does
*not* flush the coalescer (the buffer is unchanged); it maps the history
marking any streaming entry non-streaming and replacing the `tool_call`
entry whose id matches with a `tool_result` entry carrying
success/output/error; when no id matches and no entry is streaming,
history is left unchanged (and no fault is raised — the handler is a
total function). -/
theorem C3_tool_result_no_flush (s : GrokCli.DispState) (tc : GrokCli.ToolCallRef)
    (res : GrokCli.ToolResult) (hlen : s.chatHistory.length ≤ 100) :
    (GrokCli.step s (GrokCli.Ev.tool_result tc res)).streamingContentBuffer =
      s.streamingContentBuffer ∧
    (GrokCli.step s (GrokCli.Ev.tool_result tc res)).chatHistory =
      s.chatHistory.map (GrokCli.toolResultTransform tc res) ∧
    ((∀ e ∈ s.chatHistory, e.isStreaming = false ∧
        ¬(e.type = GrokCli.EntryType.tool_call ∧
          e.toolCall.map GrokCli.ToolCallRef.id = some tc.id)) →
      (GrokCli.step s (GrokCli.Ev.tool_result tc res)).chatHistory = s.chatHistory) ∧
    (∀ e : GrokCli.ChatEntry, e.isStreaming = false →
      e.type = GrokCli.EntryType.tool_call →
      e.toolCall.map GrokCli.ToolCallRef.id = some tc.id →
      GrokCli.toolResultTransform tc res e =
        { e with
          type := GrokCli.EntryType.tool_result,
          content := GrokCli.toolResultContent res,
          toolResult := some res }) := by
  have hmap : (GrokCli.step s (GrokCli.Ev.tool_result tc res)).chatHistory =
      s.chatHistory.map (GrokCli.toolResultTransform tc res) := by
    rw [GrokCli.step_tool_result_history,
      GrokCli.sizeLimited_eq_self (by rw [List.length_map]; exact hlen)]
  refine ⟨GrokCli.step_tool_result_buffer s tc res, hmap, fun hall => ?_,
    fun e h1 h2 h3 => ?_⟩
  · rw [hmap]
    have hid : s.chatHistory.map (GrokCli.toolResultTransform tc res) =
        s.chatHistory.map id := by
      apply List.map_congr_left
      intro a ha
      obtain ⟨ha1, ha2⟩ := hall a ha
      rw [GrokCli.toolResultTransform, if_neg (by simp [ha1]), if_neg ha2]
      rfl
    rw [hid, List.map_id]
  · rw [GrokCli.toolResultTransform, if_neg (by simp [h1]), if_pos ⟨h2, h3⟩]

/-- Witness for the amended C3: a single matching pending `tool_call`
entry is replaced. -/
theorem C3_tool_result_no_flush_witness :
    (GrokCli.step
        (GrokCli.initDispState
          [GrokCli.pendingToolCallEntry { id := "id1", name := "bash" }])
        (GrokCli.Ev.tool_result { id := "id1", name := "bash" }
          { success := true, output := some "ok" })).streamingContentBuffer =
      (GrokCli.initDispState
        [GrokCli.pendingToolCallEntry
          { id := "id1", name := "bash" }]).streamingContentBuffer ∧
    (GrokCli.step
        (GrokCli.initDispState
          [GrokCli.pendingToolCallEntry { id := "id1", name := "bash" }])
        (GrokCli.Ev.tool_result { id := "id1", name := "bash" }
          { success := true, output := some "ok" })).chatHistory =
      (GrokCli.initDispState
        [GrokCli.pendingToolCallEntry { id := "id1", name := "bash" }]).chatHistory.map
        (GrokCli.toolResultTransform { id := "id1", name := "bash" }
          { success := true, output := some "ok" }) ∧
    ((∀ e ∈ (GrokCli.initDispState
        [GrokCli.pendingToolCallEntry { id := "id1", name := "bash" }]).chatHistory,
        e.isStreaming = false ∧
        ¬(e.type = GrokCli.EntryType.tool_call ∧
          e.toolCall.map GrokCli.ToolCallRef.id =
            some (GrokCli.ToolCallRef.id { id := "id1", name := "bash" }))) →
      (GrokCli.step
        (GrokCli.initDispState
          [GrokCli.pendingToolCallEntry { id := "id1", name := "bash" }])
        (GrokCli.Ev.tool_result { id := "id1", name := "bash" }
          { success := true, output := some "ok" })).chatHistory =
      (GrokCli.initDispState
        [GrokCli.pendingToolCallEntry { id := "id1", name := "bash" }]).chatHistory) ∧
    (∀ e : GrokCli.ChatEntry, e.isStreaming = false →
      e.type = GrokCli.EntryType.tool_call →
      e.toolCall.map GrokCli.ToolCallRef.id =
        some (GrokCli.ToolCallRef.id { id := "id1", name := "bash" }) →
      GrokCli.toolResultTransform { id := "id1", name := "bash" }
          { success := true, output := some "ok" } e =
        { e with
          type := GrokCli.EntryType.tool_result,
          content := GrokCli.toolResultContent { success := true, output := some "ok" },
          toolResult := some { success := true, output := some "ok" } }) :=
  C3_tool_result_no_flush
    (GrokCli.initDispState
      [GrokCli.pendingToolCallEntry { id := "id1", name := "bash" }])
    { id := "id1", name := "bash" } { success := true, output := some "ok" }
    (by decide)

/-! ## C5 -/

/-- **C5 (counterexample).** A turn in which `content "a"` creates the
streaming entry and a fault `"boom"` then escapes ends with the
streaming entry still marked `isStreaming = true` (count 1), exactly one
error entry appended (length 2) and the global indicator cleared —
refuting "no history entry is left permanently marked isStreaming=true
afterwards". -/
theorem C5_counterexample :
    GrokCli.countStreaming
      ((GrokCli.runTurn (GrokCli.initDispState [])
        ([GrokCli.Ev.content "a"], some "boom")).chatHistory) = 1 ∧
    ((GrokCli.runTurn (GrokCli.initDispState [])
        ([GrokCli.Ev.content "a"], some "boom")).chatHistory).length = 2 ∧
    (GrokCli.runTurn (GrokCli.initDispState [])
        ([GrokCli.Ev.content "a"], some "boom")).isStreaming = false := by
  decide

/-- **C5 (amended).** If a fault escapes stream-event consumption
mid-turn, the dispatcher appends exactly one assistant entry describing
the failure (`"Error: " ++ message`) and clears the global streaming
indicator, terminating the turn — but it does not clear `isStreaming`
flags on history entries, so the number of entries marked streaming is
unchanged (an entry streaming at fault time stays marked). -/
theorem C5_catch_appends_error_entry (s : GrokCli.DispState) (message : String)
    (h : s.chatHistory.length < 100) :
    (GrokCli.catchFault message s).chatHistory =
      s.chatHistory ++ [GrokCli.errorEntry message] ∧
    (GrokCli.catchFault message s).isStreaming = false ∧
    GrokCli.countStreaming (GrokCli.catchFault message s).chatHistory =
      GrokCli.countStreaming s.chatHistory := by
  have hlen : (s.chatHistory ++ [GrokCli.errorEntry message]).length ≤ 100 := by
    simp only [List.length_append, List.length_singleton]
    omega
  have h1 : (GrokCli.catchFault message s).chatHistory =
      s.chatHistory ++ [GrokCli.errorEntry message] := by
    show GrokCli.addToHistory s.chatHistory [GrokCli.errorEntry message] = _
    rw [GrokCli.addToHistory, GrokCli.sizeLimited_eq_self hlen]
  have hz : GrokCli.countStreaming [GrokCli.errorEntry message] = 0 := rfl
  refine ⟨h1, rfl, ?_⟩
  rw [h1, GrokCli.countStreaming_append, hz]
  omega

/-- Witness for the amended C5: the fault path on a history holding one
streaming entry appends the error entry, clears the indicator, and the
streaming entry stays counted. -/
theorem C5_catch_appends_error_entry_witness :
    (GrokCli.catchFault "boom"
        (GrokCli.initDispState [GrokCli.newStreamingEntry "a"])).chatHistory =
      (GrokCli.initDispState [GrokCli.newStreamingEntry "a"]).chatHistory ++
        [GrokCli.errorEntry "boom"] ∧
    (GrokCli.catchFault "boom"
        (GrokCli.initDispState [GrokCli.newStreamingEntry "a"])).isStreaming = false ∧
    GrokCli.countStreaming
      (GrokCli.catchFault "boom"
        (GrokCli.initDispState [GrokCli.newStreamingEntry "a"])).chatHistory =
      GrokCli.countStreaming
        (GrokCli.initDispState [GrokCli.newStreamingEntry "a"]).chatHistory :=
  C5_catch_appends_error_entry
    (GrokCli.initDispState [GrokCli.newStreamingEntry "a"]) "boom" (by decide)

/-! ## C4 -/

/-- **C4 (counterexample).** The invariant is not preserved across
consecutive turns: a turn in which `content "a"` creates a streaming
entry and a fault escapes leaves that entry streaming; when the next
turn's first `content "b"` arrives, a second streaming entry is created,
so two entries are marked `isStreaming = true` at once. (The turn
repetition itself — a fresh `streamingEntry = null` over the same
history — follows the spec's turn model, §4.1/§5.) -/
theorem C4_counterexample :
    GrokCli.countStreaming
      ((GrokCli.applyEvents
        (GrokCli.turnStart
          (GrokCli.runTurn (GrokCli.initDispState [])
            ([GrokCli.Ev.content "a"], some "boom")))
        [GrokCli.Ev.content "b"]).chatHistory) = 2 := by
  decide

/-- **C4 (amended).** Within a single turn started from a history with
no streaming entry, at most one entry is marked `isStreaming = true` at
every reachable state — after any event prefix and also after the fault
path. (The fault path preserves the count but does not clear the flag,
which is what breaks the invariant across turns.) -/
theorem C4_single_turn_invariant (s : GrokCli.DispState) (evs : List GrokCli.Ev)
    (f : Option String)
    (hcount : GrokCli.countStreaming s.chatHistory = 0)
    (hact : s.streamingEntryActive = false) :
    GrokCli.countStreaming
      ((GrokCli.applyFault f (GrokCli.applyEvents s evs)).chatHistory) ≤ 1 := by
  have h0 : GrokCli.DispInv s := ⟨by omega, fun _ => hcount⟩
  exact (GrokCli.dispInv_applyFault f _ (GrokCli.dispInv_applyEvents evs s h0)).1

/-- Witness for the amended C4: one content event then a fault, from the
empty history. -/
theorem C4_single_turn_invariant_witness :
    GrokCli.countStreaming
      ((GrokCli.applyFault (some "x")
        (GrokCli.applyEvents (GrokCli.initDispState [])
          [GrokCli.Ev.content "a"])).chatHistory) ≤ 1 :=
  C4_single_turn_invariant (GrokCli.initDispState []) [GrokCli.Ev.content "a"]
    (some "x") (by decide) (by decide)

/-! ## C1 machinery -/

namespace GrokCli

theorem strJoin_cons (d : String) (l : List String) :
    String.join (d :: l) = d ++ String.join l := by
  apply String.ext
  simp [String.data_join, String.data_append]

theorem appendToLast_concat (buf : String) (hs : List ChatEntry) (e : ChatEntry)
    (he : e.isStreaming = true) :
    appendToLastIfStreaming buf (hs ++ [e]) =
      hs ++ [{ e with content := e.content ++ buf }] := by
  induction hs with
  | nil => simp [appendToLastIfStreaming, he]
  | cons a t ih =>
    cases t with
    | nil => simp [appendToLastIfStreaming, he]
    | cons b t2 =>
      simp only [List.cons_append] at ih ⊢
      rw [appendToLastIfStreaming, ih]

theorem c1inv_content (h0 : List ChatEntry) (hlen0 : h0.length ≤ 100)
    (acc d : String) (s : DispState) (h : C1Inv h0 acc s) :
    C1Inv h0 (acc ++ d) (step s (Ev.content d)) := by
  by_cases hd : d = ""
  · subst hd
    rw [String.append_empty]
    have he : step s (Ev.content "") = s := by simp [step]
    rw [he]
    exact h
  · rcases h with ⟨hacc, hs0⟩ | ⟨hs, e, hh, hty, hstr, hacc, hact, hlen, hstream⟩
    · subst hs0
      subst hacc
      rw [String.empty_append]
      have he : step (turnStart (initDispState h0)) (Ev.content d) =
          { chatHistory := addToHistory h0 [newStreamingEntry d],
            streamingContentBuffer := "", timerArmed := false,
            streamingEntryActive := true, isStreaming := true, tokenCount := 0 } := by
        simp only [step]
        rw [if_neg hd, if_pos
          (show (turnStart (initDispState h0)).streamingEntryActive = false from rfl)]
        rfl
      rw [he]
      obtain ⟨l', hl'⟩ := sizeLimited_append_single h0 (newStreamingEntry d)
      refine Or.inr ⟨l', newStreamingEntry d, ?_, rfl, rfl, ?_, rfl, ?_, rfl⟩
      · show addToHistory h0 [newStreamingEntry d] = l' ++ [newStreamingEntry d]
        rw [addToHistory, hl']
      · show (newStreamingEntry d).content ++ "" = d
        rw [String.append_empty]
        rfl
      · show (addToHistory h0 [newStreamingEntry d]).length ≤ 100
        rw [addToHistory, length_sizeLimited]
        omega
    · have he : step s (Ev.content d) =
          { s with
            streamingContentBuffer := s.streamingContentBuffer ++ d,
            timerArmed := true } := by
        simp only [step]
        rw [if_neg hd, if_neg (by rw [hact]; simp)]
      rw [he]
      refine Or.inr ⟨hs, e, ?_, hty, hstr, ?_, ?_, ?_, ?_⟩
      · show s.chatHistory = hs ++ [e]
        exact hh
      · show e.content ++ (s.streamingContentBuffer ++ d) = acc ++ d
        rw [← String.append_assoc, hacc]
      · show s.streamingEntryActive = true
        exact hact
      · show s.chatHistory.length ≤ 100
        exact hlen
      · show s.isStreaming = true
        exact hstream

theorem c1inv_flush (h0 : List ChatEntry) (acc : String) (s : DispState)
    (h : C1Inv h0 acc s) : C1Inv h0 acc (flushStreamingContent s) := by
  by_cases hb : s.streamingContentBuffer = ""
  · have he : flushStreamingContent s = s := by
      rw [flushStreamingContent, if_neg (by simpa using hb)]
    rw [he]
    exact h
  · have he : flushStreamingContent s =
        { s with
          streamingContentBuffer := "",
          chatHistory :=
            sizeLimited (appendToLastIfStreaming s.streamingContentBuffer s.chatHistory) } := by
      rw [flushStreamingContent, if_pos (by simpa using hb)]
    rw [he]
    rcases h with ⟨hacc, hs0⟩ | ⟨hs, e, hh, hty, hstr, hacc, hact, hlen, hstream⟩
    · exfalso
      apply hb
      rw [hs0]
      rfl
    · have hl2 : (hs ++ [{ e with content := e.content ++ s.streamingContentBuffer }]).length ≤
          100 := by
        have := hlen
        rw [hh] at this
        simpa using this
      refine Or.inr ⟨hs, { e with content := e.content ++ s.streamingContentBuffer },
        ?_, hty, hstr, ?_, hact, ?_, hstream⟩
      · show sizeLimited (appendToLastIfStreaming s.streamingContentBuffer s.chatHistory) =
          hs ++ [{ e with content := e.content ++ s.streamingContentBuffer }]
        rw [hh, appendToLast_concat _ _ _ hstr, sizeLimited_eq_self hl2]
      · show ({ e with content := e.content ++ s.streamingContentBuffer} : ChatEntry).content ++
          "" = acc
        rw [String.append_empty]
        exact hacc
      · show (sizeLimited
          (appendToLastIfStreaming s.streamingContentBuffer s.chatHistory)).length ≤ 100
        rw [length_sizeLimited]
        omega

theorem c1inv_timer (h0 : List ChatEntry) (acc : String) (s : DispState)
    (h : C1Inv h0 acc s) : C1Inv h0 acc (step s Ev.timerFire) := by
  by_cases harm : s.timerArmed = true
  · have he : step s Ev.timerFire = flushStreamingContent { s with timerArmed := false } := by
      simp [step, harm]
    rw [he]
    apply c1inv_flush
    rcases h with ⟨hacc, hs0⟩ | ⟨hs, e, hh, hty, hstr, hacc, hact, hlen, hstream⟩
    · left
      refine ⟨hacc, ?_⟩
      rw [hs0]
      rfl
    · exact Or.inr ⟨hs, e, hh, hty, hstr, hacc, hact, hlen, hstream⟩
  · have he : step s Ev.timerFire = s := by simp [step, harm]
    rw [he]
    exact h

theorem c1inv_run (h0 : List ChatEntry) (hlen0 : h0.length ≤ 100) :
    ∀ (evs : List Ev) (acc : String) (s : DispState),
      (∀ ev ∈ evs, isContentOrTimer ev = true) → C1Inv h0 acc s →
      C1Inv h0 (acc ++ String.join (deltasOf evs)) (applyEvents s evs) := by
  intro evs
  induction evs with
  | nil =>
    intro acc s _ h
    rw [show String.join (deltasOf ([] : List Ev)) = "" from rfl, String.append_empty]
    exact h
  | cons ev t ih =>
    intro acc s hall h
    have hall' : ∀ e ∈ t, isContentOrTimer e = true :=
      fun e hm => hall e (List.mem_cons_of_mem _ hm)
    have hev : isContentOrTimer ev = true := hall ev (List.mem_cons_self _ _)
    have happ : applyEvents s (ev :: t) = applyEvents (step s ev) t := rfl
    rw [happ]
    cases ev with
    | content d =>
      have hdel : String.join (deltasOf (Ev.content d :: t)) =
          d ++ String.join (deltasOf t) := by
        rw [show deltasOf (Ev.content d :: t) = d :: deltasOf t from rfl, strJoin_cons]
      rw [hdel, ← String.append_assoc]
      exact ih (acc ++ d) _ hall' (c1inv_content h0 hlen0 acc d s h)
    | timerFire =>
      exact ih acc _ hall' (c1inv_timer h0 acc s h)
    | token_count n => exact absurd hev (by simp [isContentOrTimer])
    | tool_calls calls => exact absurd hev (by simp [isContentOrTimer])
    | tool_result tc res => exact absurd hev (by simp [isContentOrTimer])
    | done => exact absurd hev (by simp [isContentOrTimer])

theorem c1_done (h0 : List ChatEntry) (acc : String) (s : DispState)
    (h : C1Inv h0 acc s) (hne : acc ≠ "") :
    ∃ en : ChatEntry, (step s Ev.done).chatHistory.getLast? = some en ∧
      en.content = acc ∧ en.type = EntryType.assistant ∧ en.isStreaming = false := by
  rcases h with ⟨hacc, _⟩ | ⟨hs, e, hh, hty, hstr, hacc, hact, hlen, _⟩
  · exact absurd hacc hne
  · by_cases hb : s.streamingContentBuffer = ""
    · have hf : flushStreamingContent { s with timerArmed := false } =
          { s with timerArmed := false } := by
        rw [flushStreamingContent, if_neg (by simpa using hb)]
      have hactf :
          (flushStreamingContent { s with timerArmed := false }).streamingEntryActive =
            true := by
        rw [hf]
        exact hact
      have he : step s Ev.done =
          { flushStreamingContent { s with timerArmed := false } with
            chatHistory := sizeLimited
              ((flushStreamingContent { s with timerArmed := false }).chatHistory.map
                clearStreamingFlag),
            isStreaming := false } := by
        simp only [step]
        rw [if_pos hactf]
      have hh2 : (flushStreamingContent { s with timerArmed := false }).chatHistory =
          hs ++ [e] := by
        rw [hf]
        exact hh
      have hacc' : e.content = acc := by
        rw [hb, String.append_empty] at hacc
        exact hacc
      have hl2 : (hs.map clearStreamingFlag ++ [clearStreamingFlag e]).length ≤ 100 := by
        have := hlen
        rw [hh] at this
        simpa using this
      rw [he]
      refine ⟨clearStreamingFlag e, ?_, ?_, ?_, clearStreamingFlag_not_streaming e⟩
      · show (sizeLimited
          ((flushStreamingContent { s with timerArmed := false }).chatHistory.map
            clearStreamingFlag)).getLast? = some (clearStreamingFlag e)
        rw [hh2, List.map_append]
        simp only [List.map_cons, List.map_nil]
        rw [sizeLimited_eq_self hl2]
        exact List.getLast?_concat _
      · show (clearStreamingFlag e).content = acc
        rw [clearStreamingFlag, if_pos hstr]
        exact hacc'
      · show (clearStreamingFlag e).type = EntryType.assistant
        rw [clearStreamingFlag, if_pos hstr]
        exact hty
    · have hf : flushStreamingContent { s with timerArmed := false } =
          { s with
            timerArmed := false,
            streamingContentBuffer := "",
            chatHistory := sizeLimited
              (appendToLastIfStreaming s.streamingContentBuffer s.chatHistory) } := by
        rw [flushStreamingContent, if_pos (by simpa using hb)]
      have hl2 : (hs ++ [{ e with content := e.content ++ s.streamingContentBuffer }]).length ≤
          100 := by
        have := hlen
        rw [hh] at this
        simpa using this
      have hh2 : (flushStreamingContent { s with timerArmed := false }).chatHistory =
          hs ++ [{ e with content := e.content ++ s.streamingContentBuffer }] := by
        rw [hf]
        show sizeLimited (appendToLastIfStreaming s.streamingContentBuffer s.chatHistory) = _
        rw [hh, appendToLast_concat _ _ _ hstr, sizeLimited_eq_self hl2]
      have hactf :
          (flushStreamingContent { s with timerArmed := false }).streamingEntryActive =
            true := by
        rw [hf]
        exact hact
      have he : step s Ev.done =
          { flushStreamingContent { s with timerArmed := false } with
            chatHistory := sizeLimited
              ((flushStreamingContent { s with timerArmed := false }).chatHistory.map
                clearStreamingFlag),
            isStreaming := false } := by
        simp only [step]
        rw [if_pos hactf]
      have hl3 : (hs.map clearStreamingFlag ++
          [clearStreamingFlag { e with content := e.content ++ s.streamingContentBuffer }]).length ≤
          100 := by
        have := hlen
        rw [hh] at this
        simpa using this
      rw [he]
      refine ⟨clearStreamingFlag { e with content := e.content ++ s.streamingContentBuffer },
        ?_, ?_, ?_,
        clearStreamingFlag_not_streaming _⟩
      · show (sizeLimited
          ((flushStreamingContent { s with timerArmed := false }).chatHistory.map
            clearStreamingFlag)).getLast? = _
        rw [hh2, List.map_append]
        simp only [List.map_cons, List.map_nil]
        rw [sizeLimited_eq_self hl3]
        exact List.getLast?_concat _
      · show (clearStreamingFlag
          { e with content := e.content ++ s.streamingContentBuffer }).content = acc
        rw [clearStreamingFlag, if_pos (show ({ e with
          content := e.content ++ s.streamingContentBuffer } : ChatEntry).isStreaming = true
          from hstr)]
        exact hacc
      · show (clearStreamingFlag
          { e with content := e.content ++ s.streamingContentBuffer }).type =
            EntryType.assistant
        rw [clearStreamingFlag, if_pos (show ({ e with
          content := e.content ++ s.streamingContentBuffer } : ChatEntry).isStreaming = true
          from hstr)]
        exact hty

end GrokCli

/-! ## C1 -/

/-- **C1.** For every turn consisting of content stream events
(interleaved arbitrarily with firings of the 50-time-unit coalescing
timer) followed by a `done` event, the assistant entry — the last
history entry — ends the turn with content equal to the exact
concatenation of all content deltas in arrival order, no longer marked
streaming: no delta is lost, duplicated or reordered, regardless of how
the timer interleaves with the forced flush performed on `done`. (The
concatenation is required non-empty: content chunks that are empty
strings are falsy and create no entry.) -/
theorem C1_content_concatenation (h0 : List GrokCli.ChatEntry)
    (evs : List GrokCli.Ev)
    (hall : ∀ ev ∈ evs, GrokCli.isContentOrTimer ev = true)
    (hlen0 : h0.length ≤ 100)
    (hne : String.join (GrokCli.deltasOf evs) ≠ "") :
    ∃ en : GrokCli.ChatEntry,
      (GrokCli.applyEvents (GrokCli.turnStart (GrokCli.initDispState h0))
        (evs ++ [GrokCli.Ev.done])).chatHistory.getLast? = some en ∧
      en.content = String.join (GrokCli.deltasOf evs) ∧
      en.type = GrokCli.EntryType.assistant ∧
      en.isStreaming = false := by
  have h0inv : GrokCli.C1Inv h0 "" (GrokCli.turnStart (GrokCli.initDispState h0)) :=
    Or.inl ⟨rfl, rfl⟩
  have hrun := GrokCli.c1inv_run h0 hlen0 evs "" _ hall h0inv
  rw [String.empty_append] at hrun
  have happ : GrokCli.applyEvents (GrokCli.turnStart (GrokCli.initDispState h0))
      (evs ++ [GrokCli.Ev.done]) =
      GrokCli.step
        (GrokCli.applyEvents (GrokCli.turnStart (GrokCli.initDispState h0)) evs)
        GrokCli.Ev.done := by
    rw [GrokCli.applyEvents, List.foldl_append]
    rfl
  rw [happ]
  exact GrokCli.c1_done h0 _ _ hrun hne

/-- Witness for C1: deltas `"Hel"`, `"lo"` with a timer firing between
them produce a final assistant entry with content `"Hello"`. -/
theorem C1_content_concatenation_witness :
    ∃ en : GrokCli.ChatEntry,
      (GrokCli.applyEvents (GrokCli.turnStart (GrokCli.initDispState []))
        ([GrokCli.Ev.content "Hel", GrokCli.Ev.timerFire, GrokCli.Ev.content "lo"] ++
          [GrokCli.Ev.done])).chatHistory.getLast? = some en ∧
      en.content = String.join (GrokCli.deltasOf
        [GrokCli.Ev.content "Hel", GrokCli.Ev.timerFire, GrokCli.Ev.content "lo"]) ∧
      en.type = GrokCli.EntryType.assistant ∧
      en.isStreaming = false :=
  C1_content_concatenation []
    [GrokCli.Ev.content "Hel", GrokCli.Ev.timerFire, GrokCli.Ev.content "lo"]
    (by decide) (by decide) (by decide)
